import Mathlib

/-!
Verification development for the Examination-Portal repository.

The repository contains two parallel implementations of a token-gated
examination-paper submission workflow:

* a Supabase (Postgres) variant: stored procedures `check_rate_limit`,
  `validate_url_token`, `create_submission_token`, `create_notification`
  (supabase/migrations), driven by client services
  (`TeacherAuthService.submitExaminationPaper`, `SubmissionManagement.handleReview`,
  `AuthService.updateProfile` / `getProfileFast`);
* an Express/MongoDB variant: routes in server/routes (add-teacher,
  submit/:token, submissions/:id/review, submissions/:id/payment,
  notifications /:id/read) over mongoose models, plus an in-memory
  `rateLimiter` middleware.

This file gives a shallow embedding of both variants.  Database tables are
association lists, timestamps are naturals, and each request handler or stored
procedure is a pure state-passing function translated line by line from the
source.  Postgres `RAISE EXCEPTION` aborts the surrounding transaction, so a
caller of a raising procedure observes the pre-call state.
-/

namespace ExamPortal

/-! ## Association-list store

All keyed tables (rate-limit rows keyed by (identifier, action), the JS
rate-limiter `Map`, the profile cache) are modelled as association lists with
first-match lookup and replace-or-append upsert. -/

def alookup {α β : Type} [DecidableEq α] : List (α × β) → α → Option β
  | [], _ => none
  | (k', v) :: rest, k => if k' = k then some v else alookup rest k

def aset {α β : Type} [DecidableEq α] : List (α × β) → α → β → List (α × β)
  | [], k, v => [(k, v)]
  | (k', v') :: rest, k, v =>
    if k' = k then (k, v) :: rest else (k', v') :: aset rest k v

theorem alookup_aset_self {α β : Type} [DecidableEq α]
    (l : List (α × β)) (k : α) (v : β) : alookup (aset l k v) k = some v := by
  induction l with
  | nil => simp [aset, alookup]
  | cons hd tl ih =>
    by_cases h : hd.1 = k
    · simp [aset, alookup, h]
    · simp [aset, alookup, h, ih]

theorem alookup_aset_ne {α β : Type} [DecidableEq α]
    (l : List (α × β)) (k k' : α) (v : β) (h : k' ≠ k) :
    alookup (aset l k v) k' = alookup l k' := by
  have hkk : ¬ (k = k') := fun hk2 => h hk2.symm
  induction l with
  | nil => simp [aset, alookup, hkk]
  | cons hd tl ih =>
    by_cases hk : hd.1 = k
    · simp [aset, alookup, hk, hkk]
    · simp [aset, alookup, hk, ih]

/-! ## Rate limiter, Postgres variant

`check_rate_limit(p_identifier, p_action, p_max_attempts, p_window_duration)`
from supabase/migrations/20250801200837_fragrant_lodge.sql (the version that
takes an interval window): a row per (identifier, action); a missing row is
created with count 1; inside the window the count is incremented while below
the maximum and otherwise `blocked_until` is written and the call raises;
outside the window the row is reset to count 1. -/

structure RateRecord where
  count : Nat
  windowStart : Nat
  blockedUntil : Option Nat
deriving Repr, DecidableEq

abbrev RateKey := String × String

abbrev RateState := List (RateKey × RateRecord)

inductive RateResult where
  | allowed
  | exceeded
deriving Repr, DecidableEq

def checkRateLimit (st : RateState) (identifier action : String)
    (maxAttempts window now : Nat) : RateResult × RateState :=
  match alookup st (identifier, action) with
  | none =>
    (.allowed, aset st (identifier, action) ⟨1, now, none⟩)
  | some r =>
    if now < r.windowStart + window then
      if maxAttempts ≤ r.count then
        (.exceeded, aset st (identifier, action)
          { r with blockedUntil := some (now + window) })
      else
        (.allowed, aset st (identifier, action) { r with count := r.count + 1 })
    else
      (.allowed, aset st (identifier, action) ⟨1, now, none⟩)

/-! ## Rate limiter, Express middleware variant

`rateLimiter(maxAttempts, windowMs)` from server/middleware/auth.js: an
in-memory `Map` keyed by `req.ip + req.path`; a missing or expired entry is
replaced by `{count: 1, resetTime: now + windowMs}`; at or above the maximum
within the window the request is rejected with 429 and the entry untouched;
otherwise the count is incremented. -/

structure JsAttempt where
  count : Nat
  resetTime : Nat
deriving Repr, DecidableEq

abbrev JsState := List (String × JsAttempt)

def rateLimiterStep (attempts : JsState) (key : String)
    (maxAttempts windowMs now : Nat) : Bool × JsState :=
  match alookup attempts key with
  | none =>
    (true, aset attempts key ⟨1, now + windowMs⟩)
  | some attempt =>
    if attempt.resetTime < now then
      (true, aset attempts key ⟨1, now + windowMs⟩)
    else if maxAttempts ≤ attempt.count then
      (false, attempts)
    else
      (true, aset attempts key ⟨attempt.count + 1, attempt.resetTime⟩)

/-- Run a sequence of `check_rate_limit` calls for one (identifier, action)
key at the given times, collecting the verdicts. -/
def runRateAttempts (st : RateState) (identifier action : String)
    (maxAttempts window : Nat) : List Nat → List RateResult × RateState
  | [] => ([], st)
  | t :: ts =>
    let (r, st') := checkRateLimit st identifier action maxAttempts window t
    let (rs, st'') := runRateAttempts st' identifier action maxAttempts window ts
    (r :: rs, st'')

/-- Run a sequence of middleware `rateLimiter` checks for one key. -/
def runJsAttempts (attempts : JsState) (key : String)
    (maxAttempts windowMs : Nat) : List Nat → List Bool × JsState
  | [] => ([], attempts)
  | t :: ts =>
    let (r, a') := rateLimiterStep attempts key maxAttempts windowMs t
    let (rs, a'') := runJsAttempts a' key maxAttempts windowMs ts
    (r :: rs, a'')

/-! ## Supabase data model

Tables from supabase/migrations (rapid_coast, fragrant_lodge): `teachers`,
`submissions`, `notifications`, `url_validations`, `rate_limits`,
`security_events`, `realtime_events`.  Field names follow the SQL columns. -/

structure UrlValidation where
  token : String
  tokenType : String
  userId : Option String
  ipAddress : Option String
  userAgent : Option String
  isValid : Bool
  validationCount : Nat
  lastValidatedAt : Nat
  expiresAt : Nat
  createdAt : Nat
deriving Repr, DecidableEq

structure SecurityEvent where
  userId : Option String
  eventType : String
  description : String
  ipAddress : Option String
  userAgent : Option String
  metaValidationCount : Nat
deriving Repr, DecidableEq

structure RealtimeEvent where
  eventType : String
  userId : Option String
  channel : Option String
deriving Repr, DecidableEq

structure STeacher where
  id : String
  profileId : Option String
  submissionToken : String
  tokenExpiresAt : Nat
  hasSubmitted : Bool
  addedBy : String
deriving Repr, DecidableEq

structure SBankDetails where
  accountNumber : String
  ifscCode : String
  accountHolderName : String
deriving Repr, DecidableEq

structure SSubjectDetails where
  subject : String
  className : String
  board : String
  examType : String
deriving Repr, DecidableEq

structure SSubmission where
  id : String
  teacherId : String
  bankDetails : SBankDetails
  subjectDetails : SSubjectDetails
  questionPaperUrl : String
  questionPaperName : String
  status : String
  reviewNotes : String
  paymentStatus : String
  paymentAmount : Nat
  reviewedBy : Option String
  reviewedAt : Option Nat
  updatedAt : Nat
deriving Repr, DecidableEq

structure SNotification where
  recipientId : String
  title : String
  message : String
  ntype : String
  isRead : Bool
  relatedId : Option String
  relatedType : Option String
deriving Repr, DecidableEq

structure Profile where
  id : String
  email : String
  fullName : String
  role : String
  phone : Option String
  avatarUrl : Option String
  updatedAt : Nat
deriving Repr, DecidableEq

structure SState where
  profiles : List Profile
  teachers : List STeacher
  submissions : List SSubmission
  notifications : List SNotification
  urlValidations : List UrlValidation
  rateLimits : RateState
  securityEvents : List SecurityEvent
  realtimeEvents : List RealtimeEvent
deriving Repr, DecidableEq

/-- `SELECT * FROM url_validations WHERE token = _ AND token_type = _` (first
matching row, as `SELECT INTO` binds one row). -/
def findValidation : List UrlValidation → String → String → Option UrlValidation
  | [], _, _ => none
  | v :: rest, tok, tt =>
    if v.token = tok ∧ v.tokenType = tt then some v else findValidation rest tok tt

/-- `UPDATE url_validations SET ... WHERE id = record.id` where the record was
obtained as the first (token, type) match: replace that row in place. -/
def replaceValidation : List UrlValidation → String → String → UrlValidation → List UrlValidation
  | [], _, _, _ => []
  | v :: rest, tok, tt, v' =>
    if v.token = tok ∧ v.tokenType = tt then v' :: rest
    else v :: replaceValidation rest tok tt v'

def findTeacherById : List STeacher → String → Option STeacher
  | [], _ => none
  | t :: ts, tid => if t.id = tid then some t else findTeacherById ts tid

/-- `UPDATE teachers SET ... WHERE id = _` (id is the primary key). -/
def updateTeacherById (ts : List STeacher) (tid : String) (f : STeacher → STeacher) :
    List STeacher :=
  ts.map fun t => if t.id = tid then f t else t

inductive ValidateResult where
  | rateLimited
  | invalidToken
  | tokenExpired
  | tokenInvalid
  | success (userId : Option String) (validationCount : Nat)
deriving Repr, DecidableEq

/-- The `code` field of the jsonb verdict built by `validate_url_token`
(`rateLimited` is a raised exception and carries no code). -/
def ValidateResult.code : ValidateResult → Option String
  | .rateLimited => none
  | .invalidToken => some "INVALID_TOKEN"
  | .tokenExpired => some "TOKEN_EXPIRED"
  | .tokenInvalid => some "TOKEN_INVALID"
  | .success _ _ => none

def ValidateResult.isSuccess : ValidateResult → Bool
  | .success _ _ => true
  | _ => false

/-- `validate_url_token(p_token, p_token_type, p_ip_address, p_user_agent)`
from supabase/migrations/20250801200837_fragrant_lodge.sql: (1) rate-limit the
caller's IP under action `url_validation` (10 per minute) when an IP is given
(a raised exception aborts the transaction, so the state is unchanged);
(2) look the record up by (token, type); absent → INVALID_TOKEN; (3) expired →
mark the record invalid and fail TOKEN_EXPIRED; (4) already invalid →
TOKEN_INVALID; (5) otherwise bump the counter, refresh IP/user-agent
(COALESCE keeps the old value when none supplied), append a security event,
and return the owning user id with the new count. -/
def validateUrlToken (st : SState) (token tokenType : String)
    (ipAddress userAgent : Option String) (now : Nat) : ValidateResult × SState :=
  let rateStep :=
    match ipAddress with
    | none => (RateResult.allowed, st.rateLimits)
    | some ip => checkRateLimit st.rateLimits ip "url_validation" 10 60 now
  match rateStep with
  | (.exceeded, _) => (.rateLimited, st)
  | (.allowed, rates') =>
    let st1 := { st with rateLimits := rates' }
    match findValidation st1.urlValidations token tokenType with
    | none => (.invalidToken, st1)
    | some record =>
      if record.expiresAt < now then
        let invalidated := { record with isValid := false }
        (.tokenExpired,
          { st1 with urlValidations :=
              replaceValidation st1.urlValidations token tokenType invalidated })
      else if record.isValid = false then
        (.tokenInvalid, st1)
      else
        let updated := { record with
          validationCount := record.validationCount + 1
          lastValidatedAt := now
          ipAddress := ipAddress.orElse fun _ => record.ipAddress
          userAgent := userAgent.orElse fun _ => record.userAgent }
        let ev : SecurityEvent := {
          userId := record.userId
          eventType := "url_validation"
          description := "URL token validated: " ++ tokenType
          ipAddress := ipAddress
          userAgent := userAgent
          metaValidationCount := record.validationCount + 1 }
        (.success record.userId (record.validationCount + 1),
          { st1 with
              urlValidations := replaceValidation st1.urlValidations token tokenType updated
              securityEvents := st1.securityEvents ++ [ev] })

/-- `create_submission_token(p_teacher_id, p_expires_in)` from the same
migration (default expiry: interval '7 days' = 604800 s).  The fresh random
token is a parameter.  The teacher row gets the new token and expiry, a
`url_validations` row is inserted for token-type `submission` (count 0, valid)
when the teacher exists (`INSERT ... SELECT` inserts nothing otherwise), and a
`token_created` realtime event is emitted. -/
def createSubmissionToken (st : SState) (teacherId token : String)
    (now expiresIn : Nat) : String × SState :=
  let expiresAt := now + expiresIn
  let teachers' := updateTeacherById st.teachers teacherId
    fun t => { t with submissionToken := token, tokenExpiresAt := expiresAt }
  let tOpt := findTeacherById st.teachers teacherId
  let validations' :=
    match tOpt with
    | none => st.urlValidations
    | some t =>
      st.urlValidations ++
        [{ token := token, tokenType := "submission", userId := t.profileId,
           ipAddress := none, userAgent := none, isValid := true,
           validationCount := 0, lastValidatedAt := now,
           expiresAt := expiresAt, createdAt := now }]
  let ev : RealtimeEvent :=
    { eventType := "token_created", userId := tOpt.bind (·.profileId),
      channel := some "teacher_events" }
  (token,
    { st with
        teachers := teachers'
        urlValidations := validations'
        realtimeEvents := st.realtimeEvents ++ [ev] })

/-! ## Supabase client services -/

def findProfileById : List Profile → String → Option Profile
  | [], _ => none
  | p :: ps, pid => if p.id = pid then some p else findProfileById ps pid

def findSubmissionById : List SSubmission → String → Option SSubmission
  | [], _ => none
  | s :: ss, sid => if s.id = sid then some s else findSubmissionById ss sid

/-- `UPDATE submissions SET ... WHERE id = _` (id is the primary key). -/
def updateSubmissionById (ss : List SSubmission) (sid : String)
    (f : SSubmission → SSubmission) : List SSubmission :=
  ss.map fun s => if s.id = sid then f s else s

/-- `create_notification(p_recipient_id, p_title, p_message, p_type,
p_related_id, p_related_type)` from
supabase/migrations/20250702153104_rapid_coast.sql: one insert into
`notifications` (is_read defaults to false). -/
def createNotification (st : SState) (recipientId title message ntype : String)
    (relatedId relatedType : Option String) : SState :=
  { st with notifications := st.notifications ++
      [{ recipientId := recipientId, title := title, message := message,
         ntype := ntype, isRead := false,
         relatedId := relatedId, relatedType := relatedType }] }

inductive SubmitSResult where
  | ok (submission : SSubmission)
  | error (message : String)
deriving Repr, DecidableEq

/-- `TeacherAuthService.submitExaminationPaper` (src/lib/teacherAuth.ts):
uploads the file (modelled as succeeding with the given public URL), inserts a
submission row with status `pending`, marks the teacher `has_submitted`,
re-fetches the teacher and enqueues the teacher/admin notifications.  The
insert fails on the `teacher_id` foreign key when the teacher does not exist.
A notification to a teacher without a linked profile would violate the
`recipient_id NOT NULL` constraint; the rpc error is not checked by the
source, so the failure is silent (no row inserted).  There is no
`has_submitted` precondition check anywhere in this function. -/
def submitExaminationPaper (st : SState) (teacherId : String)
    (bankDetails : SBankDetails) (subjectDetails : SSubjectDetails)
    (fileName fileUrl subId : String) (now : Nat) : SubmitSResult × SState :=
  match findTeacherById st.teachers teacherId with
  | none => (.error "foreign key violation on submissions.teacher_id", st)
  | some _ =>
    let submission : SSubmission :=
      { id := subId, teacherId := teacherId, bankDetails := bankDetails,
        subjectDetails := subjectDetails, questionPaperUrl := fileUrl,
        questionPaperName := fileName, status := "pending", reviewNotes := "",
        paymentStatus := "pending", paymentAmount := 0,
        reviewedBy := none, reviewedAt := none, updatedAt := now }
    let st1 := { st with submissions := st.submissions ++ [submission] }
    let teachers2 :=
      updateTeacherById st1.teachers teacherId fun t => { t with hasSubmitted := true }
    let st2 := { st1 with teachers := teachers2 }
    match findTeacherById st2.teachers teacherId with
    | none => (.ok submission, st2)
    | some teacher =>
      let st3 :=
        match teacher.profileId with
        | some pid =>
          createNotification st2 pid "Submission Successful"
            ("Your " ++ subjectDetails.subject ++
              " examination paper has been submitted successfully and is under review.")
            "success" (some subId) (some "submission")
        | none => st2
      let teacherName :=
        match teacher.profileId.bind (findProfileById st2.profiles) with
        | some p => p.fullName
        | none => "undefined"
      let st4 :=
        createNotification st3 teacher.addedBy "New Submission Received"
          (teacherName ++ " has submitted a " ++ subjectDetails.subject ++
            " examination paper for review.")
          "info" (some subId) (some "submission")
      (.ok submission, st4)

inductive ReviewDecision where
  | approved
  | rejected
deriving Repr, DecidableEq

def ReviewDecision.str : ReviewDecision → String
  | .approved => "approved"
  | .rejected => "rejected"

/-- The row update `handleReview` sends: the new status, notes, reviewer and
timestamps, plus payment amount and `payment_status = 'processing'` when
approving with a positive amount. -/
def reviewUpdate (status : ReviewDecision) (reviewNotes : String)
    (paymentAmount : Nat) (userId : String) (now : Nat) (s : SSubmission) :
    SSubmission :=
  let s1 := { s with
    status := status.str, reviewNotes := reviewNotes,
    reviewedBy := some userId, reviewedAt := some now, updatedAt := now }
  if status = .approved ∧ 0 < paymentAmount then
    { s1 with paymentAmount := paymentAmount, paymentStatus := "processing" }
  else s1

/-- The row update `handlePayment` sends. -/
def paymentUpdate (now : Nat) (s : SSubmission) : SSubmission :=
  { s with paymentStatus := "completed", updatedAt := now }

/-- `handleReview(submissionId, status)` from
src/components/admin/SubmissionManagement.tsx, with `status` restricted by its
TypeScript type to `'approved' | 'rejected'`: updates the submission row with
the new status, notes, reviewer and timestamps (plus payment amount and
`payment_status = 'processing'` when approving with a positive amount), then
creates a notification for the submission's teacher via `create_notification`
(skipped when the teacher or their profile link cannot be resolved). -/
def handleReview (st : SState) (submissionId : String) (status : ReviewDecision)
    (reviewNotes : String) (paymentAmount : Nat) (userId : String) (now : Nat) :
    SState :=
  let upd := reviewUpdate status reviewNotes paymentAmount userId now
  let st1 := { st with submissions := updateSubmissionById st.submissions submissionId upd }
  match findSubmissionById st.submissions submissionId with
  | none => st1
  | some submission =>
    match findTeacherById st1.teachers submission.teacherId with
    | none => st1
    | some teacher =>
      match teacher.profileId with
      | none => st1
      | some pid =>
        let msg :=
          if status = .approved then
            "Your submission has been approved! Payment of ₹" ++
              toString paymentAmount ++ " is being processed."
          else
            "Your submission has been " ++ status.str ++ ". " ++ reviewNotes
        let ntype := if status = .approved then "success" else "error"
        createNotification st1 pid ("Submission " ++ String.capitalize status.str)
          msg ntype (some submissionId) (some "submission")

/-- `handlePayment(submissionId, 'completed')` from
src/components/admin/SubmissionManagement.tsx: sets `payment_status` to
`completed` and notifies the teacher; the submission status is not touched. -/
def handlePayment (st : SState) (submissionId : String) (now : Nat) : SState :=
  let submissions1 :=
    updateSubmissionById st.submissions submissionId (paymentUpdate now)
  let st1 := { st with submissions := submissions1 }
  match findSubmissionById st.submissions submissionId with
  | none => st1
  | some submission =>
    match findTeacherById st1.teachers submission.teacherId with
    | none => st1
    | some teacher =>
      match teacher.profileId with
      | none => st1
      | some pid =>
        createNotification st1 pid "Payment Completed"
          ("Payment of ₹" ++ toString submission.paymentAmount ++
            " has been completed successfully!")
          "success" (some submissionId) (some "payment")

/-- The admin review/payment operations available in the Supabase client. -/
inductive AdminOp where
  | review (submissionId : String) (status : ReviewDecision) (reviewNotes : String)
      (paymentAmount : Nat) (userId : String) (now : Nat)
  | payment (submissionId : String) (now : Nat)
deriving Repr, DecidableEq

def applyAdminOp (st : SState) : AdminOp → SState
  | .review sid status notes amount uid now => handleReview st sid status notes amount uid now
  | .payment sid now => handlePayment st sid now

def applyAdminOps : SState → List AdminOp → SState
  | st, [] => st
  | st, op :: ops => applyAdminOps (applyAdminOp st op) ops

/-! ## Express/MongoDB data model

Mongoose schemas from server/models: Teacher.js, Submission.js,
Notification.js.  The submission status enum in this variant is
`pending | reviewed | accepted | declined` and the payment-status enum is
`pending | processing | completed`; mongoose rejects values outside the enum
at `save()`, which the routes surface as a 500 with no write performed. -/

structure MTeacher where
  id : String
  name : String
  email : String
  phone : String
  submissionToken : String
  tokenExpiry : Nat
  hasSubmitted : Bool
  addedBy : String
deriving Repr, DecidableEq

structure MFile where
  filename : String
  originalName : String
  path : String
  size : Nat
deriving Repr, DecidableEq

structure MSubmission where
  id : String
  teacher : String
  bankDetails : SBankDetails
  subjectDetails : SSubjectDetails
  questionPaper : MFile
  status : String
  reviewNotes : String
  paymentStatus : String
  paymentAmount : Nat
  reviewedBy : Option String
  reviewedAt : Option Nat
deriving Repr, DecidableEq

structure MNotification where
  id : String
  recipient : String
  recipientModel : String
  title : String
  message : String
  ntype : String
  isRead : Bool
  relatedId : Option String
  relatedType : Option String
deriving Repr, DecidableEq

structure MState where
  teachers : List MTeacher
  submissions : List MSubmission
  notifications : List MNotification
deriving Repr, DecidableEq

def submissionStatusEnum : List String := ["pending", "reviewed", "accepted", "declined"]

def paymentStatusEnum : List String := ["pending", "processing", "completed"]

def findMTeacherByToken : List MTeacher → String → Option MTeacher
  | [], _ => none
  | t :: ts, tok => if t.submissionToken = tok then some t else findMTeacherByToken ts tok

def findMTeacherByEmail : List MTeacher → String → Option MTeacher
  | [], _ => none
  | t :: ts, em => if t.email = em then some t else findMTeacherByEmail ts em

def findMSubmissionById : List MSubmission → String → Option MSubmission
  | [], _ => none
  | s :: ss, sid => if s.id = sid then some s else findMSubmissionById ss sid

def findMNotificationById : List MNotification → String → Option MNotification
  | [], _ => none
  | n :: ns, nid => if n.id = nid then some n else findMNotificationById ns nid

def updateMTeacherById (ts : List MTeacher) (tid : String) (f : MTeacher → MTeacher) :
    List MTeacher :=
  ts.map fun t => if t.id = tid then f t else t

def updateMSubmissionById (ss : List MSubmission) (sid : String)
    (f : MSubmission → MSubmission) : List MSubmission :=
  ss.map fun s => if s.id = sid then f s else s

/-- HTTP outcome of an Express route handler. -/
inductive MResult where
  | created (message : String)
  | ok
  | badRequest (message : String)
  | notFound (message : String)
  | serverError
deriving Repr, DecidableEq

/-- `POST /api/admin/add-teacher` (server/routes/admin.js): reject a duplicate
email, otherwise create the teacher with a fresh token expiring in 7 days
(604800000 ms) and notify the acting admin. -/
def addTeacher (st : MState) (name email phone submissionToken : String)
    (adminId teacherId notifId : String) (now : Nat) : MResult × MState :=
  match findMTeacherByEmail st.teachers email with
  | some _ => (.badRequest "Teacher with this email already exists", st)
  | none =>
    let teacher : MTeacher :=
      { id := teacherId, name := name, email := email, phone := phone,
        submissionToken := submissionToken, tokenExpiry := now + 604800000,
        hasSubmitted := false, addedBy := adminId }
    let notification : MNotification :=
      { id := notifId, recipient := adminId, recipientModel := "Admin",
        title := "Teacher Added",
        message := "Teacher " ++ name ++ " has been added successfully",
        ntype := "success", isRead := false,
        relatedId := some teacherId, relatedType := some "teacher" }
    (.created "teacher",
      { st with
          teachers := st.teachers ++ [teacher]
          notifications := st.notifications ++ [notification] })

/-- `POST /submit/:token` (server/routes/teacher.js): look the teacher up by
submission token; reject an expired link, an already-submitted teacher
("Submission already completed"), and a missing file; otherwise insert the
submission (status and payment status `pending`), flip `hasSubmitted`, and
enqueue the admin and teacher notifications. -/
def submitHandler (st : MState) (token : String) (bankDetails : SBankDetails)
    (subjectDetails : SSubjectDetails) (file : Option MFile)
    (subId notifId1 notifId2 : String) (now : Nat) : MResult × MState :=
  match findMTeacherByToken st.teachers token with
  | none => (.notFound "Invalid submission link", st)
  | some teacher =>
    if teacher.tokenExpiry < now then
      (.badRequest "Submission link has expired", st)
    else if teacher.hasSubmitted then
      (.badRequest "Submission already completed", st)
    else
      match file with
      | none => (.badRequest "Question paper file is required", st)
      | some f =>
        let submission : MSubmission :=
          { id := subId, teacher := teacher.id, bankDetails := bankDetails,
            subjectDetails := subjectDetails, questionPaper := f,
            status := "pending", reviewNotes := "", paymentStatus := "pending",
            paymentAmount := 0, reviewedBy := none, reviewedAt := none }
        let adminNotification : MNotification :=
          { id := notifId1, recipient := teacher.addedBy, recipientModel := "Admin",
            title := "New Submission Received",
            message := teacher.name ++ " has submitted their examination paper",
            ntype := "info", isRead := false,
            relatedId := some subId, relatedType := some "submission" }
        let teacherNotification : MNotification :=
          { id := notifId2, recipient := teacher.id, recipientModel := "Teacher",
            title := "Submission Successful",
            message := "Your examination paper has been submitted successfully and is under review",
            ntype := "success", isRead := false,
            relatedId := some subId, relatedType := some "submission" }
        (.created "Submission completed successfully",
          { st with
              submissions := st.submissions ++ [submission]
              teachers := updateMTeacherById st.teachers teacher.id
                fun t => { t with hasSubmitted := true }
              notifications := st.notifications ++ [adminNotification, teacherNotification] })

/-- `PUT /submissions/:id/review` (server/routes/admin.js): writes whatever
`status` the request body supplies onto the submission (plus notes, reviewer,
timestamp; payment amount and `processing` when the status is `accepted` with
a truthy amount) and notifies the teacher.  Mongoose enum validation rejects a
status outside `submissionStatusEnum` at save, surfaced as a 500 with no
write.  The current status of the submission is never consulted. -/
def reviewSubmission (st : MState) (sid status reviewNotes : String)
    (paymentAmount : Nat) (adminId notifId : String) (now : Nat) : MResult × MState :=
  match findMSubmissionById st.submissions sid with
  | none => (.notFound "Submission not found", st)
  | some submission =>
    if (submissionStatusEnum.contains status) = false then
      (.serverError, st)
    else
      let s1 := { submission with
        status := status, reviewNotes := reviewNotes,
        reviewedBy := some adminId, reviewedAt := some now }
      let s2 :=
        if status = "accepted" ∧ paymentAmount ≠ 0 then
          { s1 with paymentAmount := paymentAmount, paymentStatus := "processing" }
        else s1
      let notification : MNotification :=
        { id := notifId, recipient := submission.teacher, recipientModel := "Teacher",
          title := "Submission " ++ String.capitalize status,
          message :=
            if status = "accepted" then
              "Your submission has been accepted! Payment of ₹" ++
                toString paymentAmount ++ " is being processed."
            else
              "Your submission has been " ++ status ++ ". " ++ reviewNotes,
          ntype :=
            if status = "accepted" then "success"
            else if status = "declined" then "error"
            else "info",
          isRead := false, relatedId := some sid, relatedType := some "submission" }
      (.ok,
        { st with
            submissions := updateMSubmissionById st.submissions sid fun _ => s2
            notifications := st.notifications ++ [notification] })

/-- `PUT /submissions/:id/payment` (server/routes/admin.js): writes the
supplied payment status (mongoose enum checked at save) and notifies the
teacher; the notification quotes the stored payment amount. -/
def processPayment (st : MState) (sid status notifId : String) : MResult × MState :=
  match findMSubmissionById st.submissions sid with
  | none => (.notFound "Submission not found", st)
  | some submission =>
    if (paymentStatusEnum.contains status) = false then
      (.serverError, st)
    else
      let notification : MNotification :=
        { id := notifId, recipient := submission.teacher, recipientModel := "Teacher",
          title := "Payment Update",
          message :=
            if status = "completed" then
              "Payment of ₹" ++ toString submission.paymentAmount ++ " has been completed!"
            else
              "Payment status updated to " ++ status,
          ntype := if status = "completed" then "success" else "info",
          isRead := false, relatedId := some sid, relatedType := some "payment" }
      (.ok,
        { st with
            submissions := updateMSubmissionById st.submissions sid
              fun s => { s with paymentStatus := status }
            notifications := st.notifications ++ [notification] })

/-- `PUT /:id/read` on the notifications router: `findByIdAndUpdate(id,
{ isRead: true })` — the only field written is the read flag; a missing id is
a 404 with no write. -/
def markAsRead (st : MState) (nid : String) : MResult × MState :=
  let notifications' :=
    st.notifications.map fun n => if n.id = nid then { n with isRead := true } else n
  match findMNotificationById st.notifications nid with
  | none => (.notFound "Notification not found", st)
  | some _ => (.ok, { st with notifications := notifications' })

/-- Repeat the submit route against the same token (inputs per attempt are
irrelevant to a rejected attempt; fixed here for simplicity). -/
def iterateSubmit (token : String) (bankDetails : SBankDetails)
    (subjectDetails : SSubjectDetails) (file : Option MFile)
    (subId notifId1 notifId2 : String) (now : Nat) :
    MState → Nat → List MResult × MState
  | st, 0 => ([], st)
  | st, n + 1 =>
    let (r, st') := submitHandler st token bankDetails subjectDetails file
      subId notifId1 notifId2 now
    let (rs, st'') := iterateSubmit token bankDetails subjectDetails file
      subId notifId1 notifId2 now st' n
    (r :: rs, st'')

def SubmitSResult.isOk : SubmitSResult → Bool
  | .ok _ => true
  | .error _ => false

/-! ## AuthService profile cache (src/lib/auth.ts)

`updateProfile(updates)` merges the partial update over the authenticated
user's row — spreading `{...updates, updated_at: now}` so the `updated_at`
column is always stamped with the call time, overriding any supplied value —
then deletes the user's cache entry.  `getProfileFast(userId)` returns a
cached profile while it is fresh (5-minute TTL) and otherwise loads the row
from the database and re-caches it. -/

structure ProfileUpdates where
  email : Option String
  fullName : Option String
  phone : Option (Option String)
  avatarUrl : Option (Option String)
  updatedAt : Option Nat
deriving Repr, DecidableEq

/-- The row written by `updateProfile`: supplied fields replace the stored
ones, and `updated_at := now` is appended after the spread, so it wins over
any supplied `updated_at`. -/
def applyProfileUpdates (p : Profile) (u : ProfileUpdates) (now : Nat) : Profile :=
  { p with
      email := u.email.getD p.email
      fullName := u.fullName.getD p.fullName
      phone := u.phone.getD p.phone
      avatarUrl := u.avatarUrl.getD p.avatarUrl
      updatedAt := now }

structure AuthState where
  profiles : List Profile
  profileCache : List (String × (Profile × Nat))
deriving Repr, DecidableEq

/-- `profileCache.delete(userId)`. -/
def cacheDelete : List (String × (Profile × Nat)) → String → List (String × (Profile × Nat))
  | [], _ => []
  | (k, v) :: rest, uid =>
    if k = uid then cacheDelete rest uid else (k, v) :: cacheDelete rest uid

def updateProfile (st : AuthState) (userId : String) (updates : ProfileUpdates)
    (now : Nat) : Option Profile × AuthState :=
  match findProfileById st.profiles userId with
  | none => (none, st)
  | some p =>
    let profiles' :=
      st.profiles.map fun q => if q.id = userId then applyProfileUpdates q updates now else q
    (some (applyProfileUpdates p updates now),
      { profiles := profiles', profileCache := cacheDelete st.profileCache userId })

/-- The database-load half of `getProfileFast` (the `get_profile_fast` rpc /
fallback query), including the 5-minute re-cache. -/
def fetchProfile (st : AuthState) (userId : String) (now : Nat) :
    Option Profile × AuthState :=
  match findProfileById st.profiles userId with
  | none => (none, st)
  | some p =>
    (some p, { st with profileCache := aset st.profileCache userId (p, now + 300000) })

def getProfileFast (st : AuthState) (userId : String) (now : Nat) :
    Option Profile × AuthState :=
  match alookup st.profileCache userId with
  | some (p, expires) =>
    if now < expires then (some p, st) else fetchProfile st userId now
  | none => fetchProfile st userId now

/-! ## Interleaved rate-limit runs (for key isolation) -/

structure RateEvent where
  identifier : String
  action : String
  maxAttempts : Nat
  window : Nat
  time : Nat
deriving Repr, DecidableEq

def RateEvent.key (e : RateEvent) : RateKey := (e.identifier, e.action)

/-- Run a list of `check_rate_limit` calls (possibly for many different
(identifier, action) keys), tagging each verdict with its key. -/
def runRateEvents : RateState → List RateEvent → List (RateKey × RateResult)
  | _, [] => []
  | st, e :: es =>
    let (r, st') := checkRateLimit st e.identifier e.action e.maxAttempts e.window e.time
    (e.key, r) :: runRateEvents st' es

/-- The verdicts an interleaved run produces for the attempts of one key. -/
def outcomesFor (A : RateKey) (st : RateState) (es : List RateEvent) : List RateResult :=
  (runRateEvents st es).filterMap fun p => if p.1 = A then some p.2 else none

/-- Keep only the attempts of one key. -/
def filterKey (A : RateKey) : List RateEvent → List RateEvent
  | [] => []
  | e :: es => if e.key = A then e :: filterKey A es else filterKey A es

/-! ## Concrete instances used by the closed theorems -/

def sampleBank : SBankDetails :=
  { accountNumber := "12345", ifscCode := "IFSC0001", accountHolderName := "A Teacher" }

def sampleSubject : SSubjectDetails :=
  { subject := "Math", className := "10", board := "CBSE", examType := "Final" }

def sampleFile : MFile :=
  { filename := "f.pdf", originalName := "paper.pdf", path := "/uploads/f.pdf", size := 100 }

/-- A state whose only url-validation record expired at time 100 and whose
rate-limit table already counts 10 recent validation attempts from IP
9.9.9.9. -/
def c1State : SState :=
  { profiles := [], teachers := [], submissions := [], notifications := [],
    urlValidations :=
      [{ token := "tok1", tokenType := "submission", userId := some "U1",
         ipAddress := none, userAgent := none, isValid := true,
         validationCount := 0, lastValidatedAt := 0, expiresAt := 100, createdAt := 0 }],
    rateLimits := [(("9.9.9.9", "url_validation"), { count := 10, windowStart := 950, blockedUntil := none })],
    securityEvents := [], realtimeEvents := [] }

/-- An Express-variant state holding one already-accepted submission. -/
def c2State : MState :=
  { teachers := [],
    submissions :=
      [{ id := "S1", teacher := "T1", bankDetails := sampleBank,
         subjectDetails := sampleSubject, questionPaper := sampleFile,
         status := "accepted", reviewNotes := "", paymentStatus := "processing",
         paymentAmount := 500, reviewedBy := some "AD1", reviewedAt := some 10 }],
    notifications := [] }

/-- A Supabase-variant state with a teacher who has already submitted
(`has_submitted = true`) but whose submission token is still valid. -/
def c3State : SState :=
  { profiles :=
      [{ id := "P1", email := "t@x.com", fullName := "Tea Cher", role := "teacher",
         phone := none, avatarUrl := none, updatedAt := 0 }],
    teachers :=
      [{ id := "T1", profileId := some "P1", submissionToken := "tok3",
         tokenExpiresAt := 1000, hasSubmitted := true, addedBy := "AD1" }],
    submissions := [], notifications := [],
    urlValidations :=
      [{ token := "tok3", tokenType := "submission", userId := some "P1",
         ipAddress := none, userAgent := none, isValid := true,
         validationCount := 3, lastValidatedAt := 0, expiresAt := 1000, createdAt := 0 }],
    rateLimits := [], securityEvents := [], realtimeEvents := [] }

/-- An Express-variant state with one invited teacher who has not submitted. -/
def c5State : MState :=
  { teachers :=
      [{ id := "T1", name := "Ann", email := "ann@x.com", phone := "9",
         submissionToken := "tokM", tokenExpiry := 1000, hasSubmitted := false,
         addedBy := "AD1" }],
    submissions := [], notifications := [] }

/-- An Express-variant state with one invited teacher who has submitted. -/
def c3mState : MState :=
  { teachers :=
      [{ id := "T1", name := "Ann", email := "ann@x.com", phone := "9",
         submissionToken := "tokM", tokenExpiry := 1000, hasSubmitted := true,
         addedBy := "AD1" }],
    submissions := [], notifications := [] }

/-- A Supabase-variant state with one pending submission from a teacher with a
linked profile. -/
def c6State : SState :=
  { profiles :=
      [{ id := "P1", email := "t@x.com", fullName := "Tea Cher", role := "teacher",
         phone := none, avatarUrl := none, updatedAt := 0 }],
    teachers :=
      [{ id := "T1", profileId := some "P1", submissionToken := "tok6",
         tokenExpiresAt := 1000, hasSubmitted := true, addedBy := "AD1" }],
    submissions :=
      [{ id := "S1", teacherId := "T1", bankDetails := sampleBank,
         subjectDetails := sampleSubject, questionPaperUrl := "u", questionPaperName := "p",
         status := "pending", reviewNotes := "", paymentStatus := "pending",
         paymentAmount := 0, reviewedBy := none, reviewedAt := none, updatedAt := 0 }],
    notifications := [], urlValidations := [], rateLimits := [],
    securityEvents := [], realtimeEvents := [] }

/-- A Supabase-variant state whose submission is already approved. -/
def c2sState : SState :=
  { c6State with
      submissions :=
        [{ id := "S1", teacherId := "T1", bankDetails := sampleBank,
           subjectDetails := sampleSubject, questionPaperUrl := "u", questionPaperName := "p",
           status := "approved", reviewNotes := "", paymentStatus := "processing",
           paymentAmount := 500, reviewedBy := some "AD1", reviewedAt := some 5, updatedAt := 5 }] }

/-- A Supabase-variant state with a teacher awaiting a fresh submission
token. -/
def c7State : SState :=
  { profiles := [], teachers :=
      [{ id := "T1", profileId := some "P1", submissionToken := "old",
         tokenExpiresAt := 0, hasSubmitted := false, addedBy := "AD1" }],
    submissions := [], notifications := [], urlValidations := [],
    rateLimits := [], securityEvents := [], realtimeEvents := [] }

/-- An auth state with one profile row and an empty cache. -/
def c8State : AuthState :=
  { profiles :=
      [{ id := "U1", email := "e@x.com", fullName := "Old Name", role := "admin",
         phone := none, avatarUrl := none, updatedAt := 0 }],
    profileCache := [] }

/-- An update set that only supplies `updated_at`. -/
def c8Updates : ProfileUpdates :=
  { email := none, fullName := none, phone := none, avatarUrl := none,
    updatedAt := some 5 }

/-- An update set renaming the profile. -/
def c8wUpdates : ProfileUpdates :=
  { email := none, fullName := some "New Name", phone := none, avatarUrl := none,
    updatedAt := none }

/-! ## Helper lemmas -/

theorem findValidation_keys (l : List UrlValidation) (tok tt : String) (r : UrlValidation)
    (h : findValidation l tok tt = some r) : r.token = tok ∧ r.tokenType = tt := by
  induction l with
  | nil => simp [findValidation] at h
  | cons v rest ih =>
    by_cases hv : v.token = tok ∧ v.tokenType = tt
    · rw [findValidation, if_pos hv] at h
      cases h
      exact hv
    · rw [findValidation, if_neg hv] at h
      exact ih h

theorem findValidation_replace (l : List UrlValidation) (tok tt : String)
    (v' : UrlValidation) (hk : v'.token = tok) (hk2 : v'.tokenType = tt)
    (r : UrlValidation) (h : findValidation l tok tt = some r) :
    findValidation (replaceValidation l tok tt v') tok tt = some v' := by
  induction l with
  | nil => simp [findValidation] at h
  | cons v rest ih =>
    by_cases hv : v.token = tok ∧ v.tokenType = tt
    · rw [replaceValidation, if_pos hv, findValidation, if_pos ⟨hk, hk2⟩]
    · rw [replaceValidation, if_neg hv, findValidation, if_neg hv]
      rw [findValidation, if_neg hv] at h
      exact ih h

theorem findValidation_append_of_none (l : List UrlValidation) (tok tt : String)
    (v : UrlValidation) (hnone : findValidation l tok tt = none)
    (hk : v.token = tok) (hk2 : v.tokenType = tt) :
    findValidation (l ++ [v]) tok tt = some v := by
  induction l with
  | nil => simp [findValidation, hk, hk2]
  | cons w rest ih =>
    by_cases hw : w.token = tok ∧ w.tokenType = tt
    · rw [findValidation, if_pos hw] at hnone
      cases hnone
    · rw [findValidation, if_neg hw] at hnone
      rw [List.cons_append, findValidation, if_neg hw]
      exact ih hnone

/-! ## C1 -/

/-- C1 (amended): once a url-validation record's expiry has passed, no call to
`validate_url_token` for that (token, type) ever succeeds, and every call that
is not cut off by the IP rate limiter fails with code TOKEN_EXPIRED — in
whatever state the record has been left by earlier attempts. -/
theorem expired_token_never_validates
    (st : SState) (token tokenType : String) (ip ua : Option String) (now : Nat)
    (r : UrlValidation)
    (hfind : findValidation st.urlValidations token tokenType = some r)
    (hexp : r.expiresAt < now) :
    ((validateUrlToken st token tokenType ip ua now).1.isSuccess = false) ∧
    ((validateUrlToken st token tokenType ip ua now).1 ≠ ValidateResult.rateLimited →
      (validateUrlToken st token tokenType ip ua now).1 = ValidateResult.tokenExpired) := by
  cases ip with
  | none =>
    simp [validateUrlToken, hfind, hexp, ValidateResult.isSuccess]
  | some ipv =>
    rcases h : checkRateLimit st.rateLimits ipv "url_validation" 10 60 now with ⟨res, rates'⟩
    cases res with
    | exceeded =>
      simp [validateUrlToken, h, ValidateResult.isSuccess]
    | allowed =>
      simp [validateUrlToken, h, hfind, hexp, ValidateResult.isSuccess]

/-- C1 counterexample: in `c1State` the record for ("tok1", submission)
expired at time 100, yet the validation call at time 1000 from IP 9.9.9.9
(whose 10-attempt budget for the last minute is exhausted) fails with the
rate-limit exception, not with code TOKEN_EXPIRED — so "every call returns a
failure with code TOKEN_EXPIRED" is false as stated. -/
theorem expired_token_rate_limited_counterexample :
    ((findValidation c1State.urlValidations "tok1" "submission").map UrlValidation.expiresAt
        = some 100) ∧
    ((100 : Nat) < 1000) ∧
    ((validateUrlToken c1State "tok1" "submission" (some "9.9.9.9") none 1000).1
        = ValidateResult.rateLimited) ∧
    (ValidateResult.code (validateUrlToken c1State "tok1" "submission" (some "9.9.9.9") none 1000).1
        ≠ some "TOKEN_EXPIRED") ∧
    ((validateUrlToken c1State "tok1" "submission" (some "9.9.9.9") none 1000).1.isSuccess
        = false) := by
  decide

/-- C1 witness: the amended theorem applied at `c1State` with no client IP. -/
theorem expired_token_never_validates_witness :
    (validateUrlToken c1State "tok1" "submission" none none 1000).1
      = ValidateResult.tokenExpired :=
  (expired_token_never_validates c1State "tok1" "submission" none none 1000
    { token := "tok1", tokenType := "submission", userId := some "U1",
      ipAddress := none, userAgent := none, isValid := true,
      validationCount := 0, lastValidatedAt := 0, expiresAt := 100, createdAt := 0 }
    (by decide) (by decide)).2 (by decide)

/-! ## C7 -/

/-- On the success path (record found, unexpired, still valid, no client IP so
no rate-limit cutoff) `validate_url_token` returns the owning user id with the
incremented count, and stores exactly that count. -/
theorem validateUrlToken_success (st : SState) (tok tt : String) (ua : Option String)
    (now : Nat) (r : UrlValidation)
    (hfind : findValidation st.urlValidations tok tt = some r)
    (hexp : ¬ (r.expiresAt < now)) (hval : r.isValid = true) :
    (validateUrlToken st tok tt none ua now).1
      = ValidateResult.success r.userId (r.validationCount + 1) ∧
    (findValidation (validateUrlToken st tok tt none ua now).2.urlValidations tok tt).map
        UrlValidation.validationCount = some (r.validationCount + 1) := by
  obtain ⟨hk, hk2⟩ := findValidation_keys st.urlValidations tok tt r hfind
  constructor
  · simp [validateUrlToken, hfind, hexp, hval]
  · simp [validateUrlToken, hfind, hexp, hval]
    exact ⟨_, findValidation_replace st.urlValidations tok tt _ (by simp [hk])
      (by simp [hk2]) r hfind, rfl⟩

/-- C7: (a) a validation of a still-valid, unexpired token succeeds, bumps the
stored counter by exactly one, and returns the owning user id with the new
count; (b) in particular, a token freshly issued by `create_submission_token`
with the default 7-day expiry (604800 s) validates successfully any time up to
the expiry, returning the teacher's user id with validation_count = 1. -/
theorem token_validation_first_count :
    (∀ (st : SState) (tok tt : String) (ua : Option String) (now : Nat)
        (r : UrlValidation),
       findValidation st.urlValidations tok tt = some r →
       ¬ (r.expiresAt < now) → r.isValid = true →
       (validateUrlToken st tok tt none ua now).1
           = ValidateResult.success r.userId (r.validationCount + 1) ∧
       (findValidation (validateUrlToken st tok tt none ua now).2.urlValidations tok tt).map
           UrlValidation.validationCount = some (r.validationCount + 1)) ∧
    (∀ (st : SState) (teacherId tok : String) (now nowv : Nat) (ua : Option String)
        (t : STeacher),
       findTeacherById st.teachers teacherId = some t →
       findValidation st.urlValidations tok "submission" = none →
       nowv ≤ now + 604800 →
       (validateUrlToken (createSubmissionToken st teacherId tok now 604800).2
           tok "submission" none ua nowv).1
         = ValidateResult.success t.profileId 1 ∧
       (findValidation (validateUrlToken (createSubmissionToken st teacherId tok now 604800).2
           tok "submission" none ua nowv).2.urlValidations tok "submission").map
           UrlValidation.validationCount = some 1) := by
  constructor
  · intro st tok tt ua now r hfind hexp hval
    exact validateUrlToken_success st tok tt ua now r hfind hexp hval
  · intro st teacherId tok now nowv ua t ht hnone hle
    have hrec : findValidation (createSubmissionToken st teacherId tok now 604800).2.urlValidations
        tok "submission"
        = some { token := tok, tokenType := "submission", userId := t.profileId,
                 ipAddress := none, userAgent := none, isValid := true,
                 validationCount := 0, lastValidatedAt := now,
                 expiresAt := now + 604800, createdAt := now } := by
      simp only [createSubmissionToken, ht]
      exact findValidation_append_of_none st.urlValidations tok "submission" _ hnone rfl rfl
    have hexp : ¬ (now + 604800 < nowv) := Nat.not_lt.mpr hle
    have := validateUrlToken_success (createSubmissionToken st teacherId tok now 604800).2
      tok "submission" ua nowv _ hrec hexp rfl
    exact this

/-- C7 witness: issue a token for teacher T1 at time 0 and validate it at time
100; the validation succeeds for the teacher's profile P1 with count 1. -/
theorem token_validation_first_count_witness :
    (validateUrlToken (createSubmissionToken c7State "T1" "newtok" 0 604800).2
        "newtok" "submission" none none 100).1
      = ValidateResult.success (some "P1") 1 :=
  (token_validation_first_count.2 c7State "T1" "newtok" 0 100 none
    { id := "T1", profileId := some "P1", submissionToken := "old",
      tokenExpiresAt := 0, hasSubmitted := false, addedBy := "AD1" }
    (by decide) (by decide) (by decide)).1

/-! ## C4 -/

/-- Invariant run: starting from a single `rate_limits` row with count `k` and
window start `t₀`, attempts inside the window are all allowed while the total
stays within the maximum, and the count just accumulates. -/
theorem runRateAttempts_window (identifier action : String) (N W t₀ : Nat) :
    ∀ (ts : List Nat) (k : Nat), (∀ t ∈ ts, t < t₀ + W) → k + ts.length ≤ N →
      runRateAttempts [((identifier, action), ⟨k, t₀, none⟩)] identifier action N W ts
        = (List.replicate ts.length RateResult.allowed,
           [((identifier, action), ⟨k + ts.length, t₀, none⟩)]) := by
  intro ts
  induction ts with
  | nil =>
    intro k _ _
    simp [runRateAttempts]
  | cons t ts ih =>
    intro k hts hle
    have ht : t < t₀ + W := hts t (List.mem_cons_self t ts)
    have hcount : ¬ (N ≤ k) := by
      simp only [List.length_cons] at hle
      omega
    have hts' : ∀ x ∈ ts, x < t₀ + W := fun x hx => hts x (List.mem_cons_of_mem t hx)
    have hle' : (k + 1) + ts.length ≤ N := by
      simp only [List.length_cons] at hle
      omega
    have hstep : checkRateLimit [((identifier, action), ⟨k, t₀, none⟩)]
        identifier action N W t
        = (RateResult.allowed, [((identifier, action), ⟨k + 1, t₀, none⟩)]) := by
      simp [checkRateLimit, alookup, aset, ht, hcount]
    have harith : k + 1 + ts.length = k + (ts.length + 1) := by omega
    simp only [runRateAttempts, hstep, ih (k + 1) hts' hle', List.length_cons, harith,
      List.replicate_succ]

/-- Invariant run for the Express middleware: from a single map entry with
count `k` and reset time `t₀ + W`, in-window attempts are allowed while the
total stays within the maximum. -/
theorem runJsAttempts_window (key : String) (N W t₀ : Nat) :
    ∀ (ts : List Nat) (k : Nat), (∀ t ∈ ts, t ≤ t₀ + W) → k + ts.length ≤ N →
      runJsAttempts [(key, ⟨k, t₀ + W⟩)] key N W ts
        = (List.replicate ts.length true, [(key, ⟨k + ts.length, t₀ + W⟩)]) := by
  intro ts
  induction ts with
  | nil =>
    intro k _ _
    simp [runJsAttempts]
  | cons t ts ih =>
    intro k hts hle
    have ht : ¬ (t₀ + W < t) := Nat.not_lt.mpr (hts t (List.mem_cons_self t ts))
    have hcount : ¬ (N ≤ k) := by
      simp only [List.length_cons] at hle
      omega
    have hts' : ∀ x ∈ ts, x ≤ t₀ + W := fun x hx => hts x (List.mem_cons_of_mem t hx)
    have hle' : (k + 1) + ts.length ≤ N := by
      simp only [List.length_cons] at hle
      omega
    have hstep : rateLimiterStep [(key, ⟨k, t₀ + W⟩)] key N W t
        = (true, [(key, ⟨k + 1, t₀ + W⟩)]) := by
      simp [rateLimiterStep, alookup, aset, ht, hcount]
    have harith : k + 1 + ts.length = k + (ts.length + 1) := by omega
    simp only [runJsAttempts, hstep, ih (k + 1) hts' hle', List.length_cons, harith,
      List.replicate_succ]

/-- C4: for both rate limiters (the `check_rate_limit` stored procedure and
the Express `rateLimiter` middleware), starting from an empty state with
configured maximum N and window W: the first N attempts within the window are
all allowed, the (N+1)-th attempt within the window is rejected, and an
attempt after the window has elapsed since the window start is allowed and
resets the stored count to 1. -/
theorem rate_limit_window
    (identifier action key : String) (N W t₀ u v : Nat) (ts : List Nat)
    (hlen : ts.length + 1 = N)
    (hts : ∀ t ∈ ts, t < t₀ + W) (hu : u < t₀ + W) (hv : t₀ + W < v)
    (rs : List RateResult) (st1 : RateState)
    (hrun : runRateAttempts [] identifier action N W (t₀ :: ts) = (rs, st1))
    (bs : List Bool) (a1 : JsState)
    (hjrun : runJsAttempts [] key N W (t₀ :: ts) = (bs, a1)) :
    (rs = List.replicate N RateResult.allowed ∧
     (checkRateLimit st1 identifier action N W u).1 = RateResult.exceeded ∧
     (checkRateLimit (checkRateLimit st1 identifier action N W u).2
         identifier action N W v).1 = RateResult.allowed ∧
     (alookup (checkRateLimit (checkRateLimit st1 identifier action N W u).2
         identifier action N W v).2 (identifier, action)).map RateRecord.count
       = some 1) ∧
    (bs = List.replicate N true ∧
     (rateLimiterStep a1 key N W u).1 = false ∧
     (rateLimiterStep (rateLimiterStep a1 key N W u).2 key N W v).1 = true ∧
     (alookup (rateLimiterStep (rateLimiterStep a1 key N W u).2 key N W v).2 key).map
         JsAttempt.count = some 1) := by
  have hfirst : checkRateLimit [] identifier action N W t₀
      = (RateResult.allowed, [((identifier, action), ⟨1, t₀, none⟩)]) := by
    simp [checkRateLimit, alookup, aset]
  have hrest := runRateAttempts_window identifier action N W t₀ ts 1 hts (by omega)
  have hfull : runRateAttempts [] identifier action N W (t₀ :: ts)
      = (RateResult.allowed :: List.replicate ts.length RateResult.allowed,
         [((identifier, action), ⟨1 + ts.length, t₀, none⟩)]) := by
    simp only [runRateAttempts, hfirst, hrest]
  rw [hfull] at hrun
  have hrs : rs = RateResult.allowed :: List.replicate ts.length RateResult.allowed :=
    (Prod.mk.injEq _ _ _ _ ▸ hrun).1.symm
  have hst1 : st1 = [((identifier, action), ⟨1 + ts.length, t₀, none⟩)] :=
    (Prod.mk.injEq _ _ _ _ ▸ hrun).2.symm
  have hN : 1 + ts.length = N := by omega
  have hjfirst : rateLimiterStep [] key N W t₀ = (true, [(key, ⟨1, t₀ + W⟩)]) := by
    simp [rateLimiterStep, alookup, aset]
  have hjts : ∀ t ∈ ts, t ≤ t₀ + W := fun t htm => Nat.le_of_lt (hts t htm)
  have hjrest := runJsAttempts_window key N W t₀ ts 1 hjts (by omega)
  have hjfull : runJsAttempts [] key N W (t₀ :: ts)
      = (true :: List.replicate ts.length true, [(key, ⟨1 + ts.length, t₀ + W⟩)]) := by
    simp only [runJsAttempts, hjfirst, hjrest]
  rw [hjfull] at hjrun
  have hbs : bs = true :: List.replicate ts.length true :=
    (Prod.mk.injEq _ _ _ _ ▸ hjrun).1.symm
  have ha1 : a1 = [(key, ⟨1 + ts.length, t₀ + W⟩)] :=
    (Prod.mk.injEq _ _ _ _ ▸ hjrun).2.symm
  subst hrs hst1 hbs ha1
  have hNle : N ≤ 1 + ts.length := by omega
  have hvnot : ¬ (v < t₀ + W) := by omega
  have hunot : ¬ (t₀ + W < u) := by omega
  constructor
  · refine ⟨?_, ?_, ?_, ?_⟩
    · have hN2 : N = ts.length + 1 := by omega
      rw [hN2]
      simp [List.replicate_succ]
    · simp [checkRateLimit, alookup, hu, hNle]
    · simp [checkRateLimit, alookup, aset, hu, hNle, hvnot]
    · simp [checkRateLimit, alookup, aset, hu, hNle, hvnot]
  · refine ⟨?_, ?_, ?_, ?_⟩
    · have hN2 : N = ts.length + 1 := by omega
      rw [hN2]
      simp [List.replicate_succ]
    · simp [rateLimiterStep, alookup, hunot, hNle]
    · simp [rateLimiterStep, alookup, aset, hunot, hNle, hv]
    · simp [rateLimiterStep, alookup, aset, hunot, hNle, hv]

/-- C4 witness: N = 2, W = 10, attempts at times 0 and 5 allowed, at time 7
rejected, and at time 25 allowed again with the count reset to 1, in both
implementations. -/
theorem rate_limit_window_witness :
    (([RateResult.allowed, RateResult.allowed] : List RateResult)
        = List.replicate 2 RateResult.allowed ∧
     (checkRateLimit [(("e", "login"), ⟨2, 0, none⟩)] "e" "login" 2 10 7).1
        = RateResult.exceeded ∧
     (checkRateLimit (checkRateLimit [(("e", "login"), ⟨2, 0, none⟩)] "e" "login" 2 10 7).2
         "e" "login" 2 10 25).1 = RateResult.allowed ∧
     (alookup (checkRateLimit (checkRateLimit [(("e", "login"), ⟨2, 0, none⟩)] "e" "login" 2 10 7).2
         "e" "login" 2 10 25).2 ("e", "login")).map RateRecord.count = some 1) ∧
    (([true, true] : List Bool) = List.replicate 2 true ∧
     (rateLimiterStep [("k", ⟨2, 10⟩)] "k" 2 10 7).1 = false ∧
     (rateLimiterStep (rateLimiterStep [("k", ⟨2, 10⟩)] "k" 2 10 7).2 "k" 2 10 25).1 = true ∧
     (alookup (rateLimiterStep (rateLimiterStep [("k", ⟨2, 10⟩)] "k" 2 10 7).2 "k" 2 10 25).2
         "k").map JsAttempt.count = some 1) :=
  rate_limit_window "e" "login" "k" 2 10 0 7 25 [5] (by decide)
    (by decide) (by decide) (by decide)
    [RateResult.allowed, RateResult.allowed] [(("e", "login"), ⟨2, 0, none⟩)] (by decide)
    [true, true] [("k", ⟨2, 10⟩)] (by decide)

/-! ## C10 -/

/-- A `check_rate_limit` call reads and writes only its own
(identifier, action) row. -/
theorem checkRateLimit_lookup_ne (st : RateState) (identifier action : String)
    (m w t : Nat) (k' : RateKey) (h : k' ≠ (identifier, action)) :
    alookup (checkRateLimit st identifier action m w t).2 k' = alookup st k' := by
  unfold checkRateLimit
  cases halo : alookup st (identifier, action) with
  | none => simp [alookup_aset_ne st _ k' _ h]
  | some r =>
    by_cases h1 : t < r.windowStart + w
    · by_cases h2 : m ≤ r.count
      · simp [h1, h2, alookup_aset_ne st _ k' _ h]
      · simp [h1, h2, alookup_aset_ne st _ k' _ h]
    · simp [h1, alookup_aset_ne st _ k' _ h]

/-- A `check_rate_limit` call's verdict and its effect on its own row depend
only on that row. -/
theorem checkRateLimit_congr (st₁ st₂ : RateState) (identifier action : String)
    (m w t : Nat)
    (h : alookup st₁ (identifier, action) = alookup st₂ (identifier, action)) :
    (checkRateLimit st₁ identifier action m w t).1
        = (checkRateLimit st₂ identifier action m w t).1 ∧
    alookup (checkRateLimit st₁ identifier action m w t).2 (identifier, action)
        = alookup (checkRateLimit st₂ identifier action m w t).2 (identifier, action) := by
  unfold checkRateLimit
  rw [h]
  cases halo : alookup st₂ (identifier, action) with
  | none => simp [alookup_aset_self]
  | some r =>
    by_cases h1 : t < r.windowStart + w
    · by_cases h2 : m ≤ r.count
      · simp [h1, h2, alookup_aset_self]
      · simp [h1, h2, alookup_aset_self]
    · simp [h1, alookup_aset_self]

/-- Noninterference induction: two runs whose states agree on key `A` produce
the same verdicts for `A`'s attempts, whether or not other keys' attempts are
interleaved. -/
theorem outcomesFor_filterKey (A : RateKey) :
    ∀ (es : List RateEvent) (st₁ st₂ : RateState),
      alookup st₁ A = alookup st₂ A →
      outcomesFor A st₁ es = outcomesFor A st₂ (filterKey A es) := by
  intro es
  induction es with
  | nil =>
    intro st₁ st₂ _
    simp [outcomesFor, runRateEvents, filterKey]
  | cons e es ih =>
    intro st₁ st₂ h
    rcases hc1 : checkRateLimit st₁ e.identifier e.action e.maxAttempts e.window e.time
      with ⟨r₁, st₁'⟩
    by_cases hk : e.key = A
    · have h' : alookup st₁ (e.identifier, e.action) = alookup st₂ (e.identifier, e.action) := by
        have : (e.identifier, e.action) = A := hk
        rw [this]
        exact h
      rcases hc2 : checkRateLimit st₂ e.identifier e.action e.maxAttempts e.window e.time
        with ⟨r₂, st₂'⟩
      obtain ⟨hr, hs⟩ := checkRateLimit_congr st₁ st₂ e.identifier e.action
        e.maxAttempts e.window e.time h'
      rw [hc1, hc2] at hr hs
      have hs' : alookup st₁' A = alookup st₂' A := by
        have : (e.identifier, e.action) = A := hk
        rw [this] at hs
        exact hs
      simp only at hr
      simp only [outcomesFor, runRateEvents, filterKey, hc1, hc2, hk, if_pos,
        List.filterMap_cons]
      simp only [outcomesFor] at ih
      simp [hr, ih st₁' st₂' hs']
    · have hA : A ≠ (e.identifier, e.action) := by
        intro contra
        exact hk contra.symm
      have hs' : alookup st₁' A = alookup st₂ A := by
        have := checkRateLimit_lookup_ne st₁ e.identifier e.action
          e.maxAttempts e.window e.time A hA
        rw [hc1] at this
        exact this.trans h
      simp only [outcomesFor, runRateEvents, filterKey, hc1, hk,
        List.filterMap_cons, if_neg hk]
      simp only [outcomesFor] at ih
      exact ih st₁' st₂ hs'

/-- C10: attempts recorded under one (identifier, action) key never change the
allow/reject outcome of attempts under a different key — running a mixed
attempt sequence produces, for key `A`, exactly the verdicts of running only
`A`'s attempts (all attempts for keys other than `A` are the interleaved
ones that `filterKey` removes). -/
theorem rate_limit_key_isolation (A : RateKey) (st : RateState) (es : List RateEvent) :
    outcomesFor A st es = outcomesFor A st (filterKey A es) :=
  outcomesFor_filterKey A es st st rfl

/-! ## C2 -/

theorem findSubmissionById_update (ss : List SSubmission) (sid id : String)
    (f : SSubmission → SSubmission) (hf : ∀ s, (f s).id = s.id) :
    findSubmissionById (updateSubmissionById ss sid f) id
      = (findSubmissionById ss id).map fun s => if s.id = sid then f s else s := by
  induction ss with
  | nil => simp [findSubmissionById, updateSubmissionById]
  | cons s ss ih =>
    simp only [updateSubmissionById, List.map_cons] at ih ⊢
    have hid : (if s.id = sid then f s else s).id = s.id := by
      by_cases h1 : s.id = sid <;> simp [h1, hf s]
    by_cases h2 : s.id = id
    · simp only [findSubmissionById]
      rw [hid]
      simp [h2]
    · simp only [findSubmissionById]
      rw [hid]
      simp [h2, ih]

/-- `handleReview` touches the submissions table exactly through the one
row update; the notification branches leave it alone. -/
theorem handleReview_submissions_eq (st : SState) (sid : String) (d : ReviewDecision)
    (notes : String) (amount : Nat) (uid : String) (now : Nat) :
    (handleReview st sid d notes amount uid now).submissions
      = updateSubmissionById st.submissions sid (reviewUpdate d notes amount uid now) := by
  unfold handleReview
  cases hfs : findSubmissionById st.submissions sid with
  | none => simp
  | some sub =>
    cases hft : findTeacherById st.teachers sub.teacherId with
    | none => simp [hft]
    | some teacher =>
      cases hpid : teacher.profileId with
      | none => simp [hft, hpid]
      | some pid => simp [hft, hpid, createNotification]

/-- `handlePayment` touches the submissions table exactly through the one
payment-status update. -/
theorem handlePayment_submissions_eq (st : SState) (sid : String) (now : Nat) :
    (handlePayment st sid now).submissions
      = updateSubmissionById st.submissions sid (paymentUpdate now) := by
  unfold handlePayment
  cases hfs : findSubmissionById st.submissions sid with
  | none => simp
  | some sub =>
    cases hft : findTeacherById st.teachers sub.teacherId with
    | none => simp [hft]
    | some teacher =>
      cases hpid : teacher.profileId with
      | none => simp [hft, hpid]
      | some pid => simp [hft, hpid, createNotification]

/-- One Supabase admin operation keeps an approved/rejected submission
approved or rejected. -/
theorem applyAdminOp_terminal (st : SState) (op : AdminOp) (id : String)
    (s : SSubmission)
    (hfind : findSubmissionById st.submissions id = some s)
    (hterm : s.status = "approved" ∨ s.status = "rejected") :
    ∃ s', findSubmissionById (applyAdminOp st op).submissions id = some s' ∧
      (s'.status = "approved" ∨ s'.status = "rejected") := by
  cases op with
  | review sid d notes amount uid now =>
    have hfid : ∀ x : SSubmission, (reviewUpdate d notes amount uid now x).id = x.id := by
      intro x
      unfold reviewUpdate
      by_cases hc : d = ReviewDecision.approved ∧ 0 < amount <;> simp [hc]
    have hstat : ∀ x : SSubmission,
        (reviewUpdate d notes amount uid now x).status = "approved" ∨
        (reviewUpdate d notes amount uid now x).status = "rejected" := by
      intro x
      unfold reviewUpdate
      cases d with
      | approved =>
        by_cases ham : 0 < amount
        · simp [ham, ReviewDecision.str]
        · simp [ham, ReviewDecision.str]
      | rejected => simp [ReviewDecision.str]
    simp only [applyAdminOp]
    rw [handleReview_submissions_eq, findSubmissionById_update _ _ _ _ hfid, hfind]
    by_cases hid : s.id = sid
    · exact ⟨reviewUpdate d notes amount uid now s, by simp [hid], hstat s⟩
    · exact ⟨s, by simp [hid], hterm⟩
  | payment sid now =>
    have hfid : ∀ x : SSubmission, (paymentUpdate now x).id = x.id := fun x => rfl
    simp only [applyAdminOp]
    rw [handlePayment_submissions_eq, findSubmissionById_update _ _ _ _ hfid, hfind]
    by_cases hid : s.id = sid
    · exact ⟨paymentUpdate now s, by simp [hid], by simpa [paymentUpdate] using hterm⟩
    · exact ⟨s, by simp [hid], hterm⟩

theorem applyAdminOps_terminal (ops : List AdminOp) :
    ∀ (st : SState) (id : String) (s : SSubmission),
      findSubmissionById st.submissions id = some s →
      (s.status = "approved" ∨ s.status = "rejected") →
      ∃ s', findSubmissionById (applyAdminOps st ops).submissions id = some s' ∧
        (s'.status = "approved" ∨ s'.status = "rejected") := by
  induction ops with
  | nil =>
    intro st id s h ht
    exact ⟨s, h, ht⟩
  | cons op ops ih =>
    intro st id s h ht
    obtain ⟨s', h', ht'⟩ := applyAdminOp_terminal st op id s h ht
    exact ih (applyAdminOp st op) id s' h' ht'

/-- C2 (amended): along every sequence of Supabase admin review/payment
operations — whose review status argument is restricted by `handleReview`'s
type to approved/rejected — a submission once observed approved or rejected
stays approved or rejected, and in particular is never again observed pending
or under_review.  (The Express review endpoint does not enforce this; see the
counterexample.) -/
theorem review_terminal_status_monotonic (ops : List AdminOp) (st : SState)
    (id : String) (s : SSubmission)
    (hfind : findSubmissionById st.submissions id = some s)
    (hterm : s.status = "approved" ∨ s.status = "rejected") :
    ∃ s', findSubmissionById (applyAdminOps st ops).submissions id = some s' ∧
      (s'.status = "approved" ∨ s'.status = "rejected") ∧
      s'.status ≠ "pending" ∧ s'.status ≠ "under_review" := by
  obtain ⟨s', h', ht'⟩ := applyAdminOps_terminal ops st id s hfind hterm
  refine ⟨s', h', ht', ?_, ?_⟩ <;> rcases ht' with h | h <;> simp [h]

/-- C2 counterexample: the Express review endpoint
(`PUT /submissions/:id/review`) writes whatever status the request supplies.
In `c2State` the submission S1 is in this variant's terminal accepted state
(its spelling of "approved"), yet a review request carrying status "pending"
succeeds and the submission is observed as pending again — the review step
relation does not make accepted/approved terminal. -/
theorem review_status_regression_counterexample :
    ((findMSubmissionById c2State.submissions "S1").map MSubmission.status
        = some "accepted") ∧
    ((reviewSubmission c2State "S1" "pending" "" 0 "AD1" "N9" 20).1 = MResult.ok) ∧
    ((findMSubmissionById
        (reviewSubmission c2State "S1" "pending" "" 0 "AD1" "N9" 20).2.submissions
        "S1").map MSubmission.status = some "pending") := by
  decide

/-- C2 witness: the amended theorem applied to an approved submission and the
operation sequence [complete payment, re-review as rejected]. -/
theorem review_terminal_status_monotonic_witness :
    ∃ s', findSubmissionById
        (applyAdminOps c2sState
          [AdminOp.payment "S1" 6, AdminOp.review "S1" ReviewDecision.rejected "" 0 "AD1" 7]).submissions
        "S1" = some s' ∧
      (s'.status = "approved" ∨ s'.status = "rejected") ∧
      s'.status ≠ "pending" ∧ s'.status ≠ "under_review" :=
  review_terminal_status_monotonic
    [AdminOp.payment "S1" 6, AdminOp.review "S1" ReviewDecision.rejected "" 0 "AD1" 7]
    c2sState "S1"
    { id := "S1", teacherId := "T1", bankDetails := sampleBank,
      subjectDetails := sampleSubject, questionPaperUrl := "u", questionPaperName := "p",
      status := "approved", reviewNotes := "", paymentStatus := "processing",
      paymentAmount := 500, reviewedBy := some "AD1", reviewedAt := some 5, updatedAt := 5 }
    (by decide) (by decide)

/-! ## C3 -/

/-- A rejected repeat submission leaves the Express state untouched. -/
theorem submitHandler_already_completed (st : MState) (token : String)
    (bankDetails : SBankDetails) (subjectDetails : SSubjectDetails)
    (file : Option MFile) (subId notifId1 notifId2 : String) (now : Nat)
    (t : MTeacher)
    (hfind : findMTeacherByToken st.teachers token = some t)
    (hexp : ¬ (t.tokenExpiry < now)) (hsub : t.hasSubmitted = true) :
    submitHandler st token bankDetails subjectDetails file subId notifId1 notifId2 now
      = (MResult.badRequest "Submission already completed", st) := by
  simp [submitHandler, hfind, hexp, hsub]

/-- C3 (amended): on the Express route `POST /submit/:token`, while the
token's teacher has `hasSubmitted = true` (and the link is unexpired, which is
checked first), every further submission attempt — any number of retries —
returns the "Submission already completed" error and the state, in particular
the submissions table, is unchanged.  (The Supabase-side
`submitExaminationPaper` performs no such check; see the counterexample.) -/
theorem already_submitted_always_rejected (st : MState) (token : String)
    (bankDetails : SBankDetails) (subjectDetails : SSubjectDetails)
    (file : Option MFile) (subId notifId1 notifId2 : String) (now : Nat)
    (n : Nat) (t : MTeacher)
    (hfind : findMTeacherByToken st.teachers token = some t)
    (hexp : ¬ (t.tokenExpiry < now)) (hsub : t.hasSubmitted = true) :
    iterateSubmit token bankDetails subjectDetails file subId notifId1 notifId2 now st n
      = (List.replicate n (MResult.badRequest "Submission already completed"), st) := by
  induction n with
  | zero => simp [iterateSubmit]
  | succ n ih =>
    simp only [iterateSubmit,
      submitHandler_already_completed st token bankDetails subjectDetails file
        subId notifId1 notifId2 now t hfind hexp hsub,
      ih, List.replicate_succ]

/-- C3 counterexample: in `c3State` teacher T1 already has
`has_submitted = true` and still holds the unexpired token "tok3"; the token
still validates, and the Supabase-side `submitExaminationPaper` succeeds and
inserts a second submission row instead of rejecting with "Submission already
completed" — no code path checks the flag. -/
theorem double_submission_counterexample :
    ((findTeacherById c3State.teachers "T1").map STeacher.hasSubmitted = some true) ∧
    ((validateUrlToken c3State "tok3" "submission" none none 50).1.isSuccess = true) ∧
    ((submitExaminationPaper c3State "T1" sampleBank sampleSubject
        "m.pdf" "url9" "SUB9" 60).1.isOk = true) ∧
    ((submitExaminationPaper c3State "T1" sampleBank sampleSubject
        "m.pdf" "url9" "SUB9" 60).2.submissions.length
      = c3State.submissions.length + 1) := by
  decide

/-- C3 witness: two retries against the already-submitted teacher of
`c3mState` are both rejected and leave the state unchanged. -/
theorem already_submitted_always_rejected_witness :
    iterateSubmit "tokM" sampleBank sampleSubject (some sampleFile)
        "S1" "N1" "N2" 10 c3mState 2
      = (List.replicate 2 (MResult.badRequest "Submission already completed"), c3mState) :=
  already_submitted_always_rejected c3mState "tokM" sampleBank sampleSubject
    (some sampleFile) "S1" "N1" "N2" 10 2
    { id := "T1", name := "Ann", email := "ann@x.com", phone := "9",
      submissionToken := "tokM", tokenExpiry := 1000, hasSubmitted := true,
      addedBy := "AD1" }
    (by decide) (by decide) (by decide)

/-! ## C5 -/

theorem findTeacherById_id (ts : List STeacher) (tid : String) (t : STeacher)
    (h : findTeacherById ts tid = some t) : t.id = tid := by
  induction ts with
  | nil => simp [findTeacherById] at h
  | cons x xs ih =>
    by_cases hx : x.id = tid
    · rw [findTeacherById, if_pos hx] at h
      cases h
      exact hx
    · rw [findTeacherById, if_neg hx] at h
      exact ih h

theorem findTeacherById_update (ts : List STeacher) (tid id : String)
    (f : STeacher → STeacher) (hf : ∀ t, (f t).id = t.id) :
    findTeacherById (updateTeacherById ts tid f) id
      = (findTeacherById ts id).map fun t => if t.id = tid then f t else t := by
  induction ts with
  | nil => simp [findTeacherById, updateTeacherById]
  | cons t ts ih =>
    simp only [updateTeacherById, List.map_cons] at ih ⊢
    have hid : (if t.id = tid then f t else t).id = t.id := by
      by_cases h1 : t.id = tid <;> simp [h1, hf t]
    by_cases h2 : t.id = id
    · simp only [findTeacherById]
      rw [hid]
      simp [h2]
    · simp only [findTeacherById]
      rw [hid]
      simp [h2, ih]

/-- C5: every successful submission-recording operation notifies both sides.
(a) Express `POST /submit/:token`: a 201 response implies the new state holds
a notification for the inviting admin (the teacher's `addedBy`) and one for
the teacher.  (b) Supabase `submitExaminationPaper`: a successful return for a
teacher with a linked profile (the only kind that can submit, since the
submissions insert policy requires `profile_id = auth.uid()`) implies
notifications addressed to the teacher's profile and to the inviting admin. -/
theorem submission_notifies_teacher_and_admin :
    (∀ (st : MState) (token : String) (bankDetails : SBankDetails)
        (subjectDetails : SSubjectDetails) (file : Option MFile)
        (subId notifId1 notifId2 : String) (now : Nat) (msg : String) (st' : MState),
       submitHandler st token bankDetails subjectDetails file subId notifId1 notifId2 now
           = (MResult.created msg, st') →
       ∃ t, findMTeacherByToken st.teachers token = some t ∧
         (∃ n ∈ st'.notifications, n.recipient = t.addedBy ∧ n.recipientModel = "Admin") ∧
         (∃ n ∈ st'.notifications, n.recipient = t.id ∧ n.recipientModel = "Teacher")) ∧
    (∀ (st : SState) (teacherId : String) (bankDetails : SBankDetails)
        (subjectDetails : SSubjectDetails) (fileName fileUrl subId : String) (now : Nat)
        (sub : SSubmission) (st' : SState) (t : STeacher) (pid : String),
       findTeacherById st.teachers teacherId = some t →
       t.profileId = some pid →
       submitExaminationPaper st teacherId bankDetails subjectDetails fileName fileUrl subId now
           = (SubmitSResult.ok sub, st') →
       (∃ n ∈ st'.notifications, n.recipientId = pid) ∧
       (∃ n ∈ st'.notifications, n.recipientId = t.addedBy)) := by
  constructor
  · intro st token bank subj file subId n1 n2 now msg st' h
    cases hf : findMTeacherByToken st.teachers token with
    | none => simp [submitHandler, hf] at h
    | some t =>
      by_cases hexp : t.tokenExpiry < now
      · simp [submitHandler, hf, hexp] at h
      · by_cases hsub : t.hasSubmitted
        · simp [submitHandler, hf, hexp, hsub] at h
        · cases file with
          | none => simp [submitHandler, hf, hexp, hsub] at h
          | some f =>
            have hst : (submitHandler st token bank subj (some f) subId n1 n2 now).2 = st' :=
              congrArg Prod.snd h
            refine ⟨t, rfl, ?_, ?_⟩
            · rw [← hst]
              simp [submitHandler, hf, hexp, hsub]
              exact ⟨_, Or.inr (Or.inl rfl), rfl, rfl⟩
            · rw [← hst]
              simp [submitHandler, hf, hexp, hsub]
              exact ⟨_, Or.inr (Or.inr rfl), rfl, rfl⟩
  · intro st teacherId bank subj fn url subId now sub st' t pid ht hpid h
    have htid : t.id = teacherId := findTeacherById_id st.teachers teacherId t ht
    have hre : findTeacherById
        (updateTeacherById st.teachers teacherId fun x => { x with hasSubmitted := true })
        teacherId = some { t with hasSubmitted := true } := by
      rw [findTeacherById_update st.teachers teacherId teacherId
        (fun x => { x with hasSubmitted := true }) (fun x => rfl), ht]
      simp [htid]
    have hst : (submitExaminationPaper st teacherId bank subj fn url subId now).2 = st' :=
      congrArg Prod.snd h
    constructor
    · rw [← hst]
      simp [submitExaminationPaper, ht, hre, hpid, createNotification]
      exact ⟨_, Or.inr (Or.inl rfl), rfl⟩
    · rw [← hst]
      simp [submitExaminationPaper, ht, hre, hpid, createNotification]
      exact ⟨_, Or.inr (Or.inr rfl), rfl⟩

/-- C5 witness: a concrete successful Express submission and a concrete
successful Supabase submission, each producing both notifications. -/
theorem submission_notifies_teacher_and_admin_witness :
    (∃ t, findMTeacherByToken c5State.teachers "tokM" = some t ∧
      (∃ n ∈ (submitHandler c5State "tokM" sampleBank sampleSubject (some sampleFile)
           "S1" "N1" "N2" 10).2.notifications,
         n.recipient = t.addedBy ∧ n.recipientModel = "Admin") ∧
      (∃ n ∈ (submitHandler c5State "tokM" sampleBank sampleSubject (some sampleFile)
           "S1" "N1" "N2" 10).2.notifications,
         n.recipient = t.id ∧ n.recipientModel = "Teacher")) ∧
    ((∃ n ∈ (submitExaminationPaper c3State "T1" sampleBank sampleSubject
          "m.pdf" "url9" "SUB9" 60).2.notifications, n.recipientId = "P1") ∧
     (∃ n ∈ (submitExaminationPaper c3State "T1" sampleBank sampleSubject
          "m.pdf" "url9" "SUB9" 60).2.notifications,
        n.recipientId = ({ id := "T1", profileId := some "P1", submissionToken := "tok3",
                           tokenExpiresAt := 1000, hasSubmitted := true,
                           addedBy := "AD1" } : STeacher).addedBy)) :=
  ⟨submission_notifies_teacher_and_admin.1 c5State "tokM" sampleBank sampleSubject
     (some sampleFile) "S1" "N1" "N2" 10 "Submission completed successfully"
     (submitHandler c5State "tokM" sampleBank sampleSubject (some sampleFile)
       "S1" "N1" "N2" 10).2 (by decide),
   submission_notifies_teacher_and_admin.2 c3State "T1" sampleBank sampleSubject
     "m.pdf" "url9" "SUB9" 60
     { id := "SUB9", teacherId := "T1", bankDetails := sampleBank,
       subjectDetails := sampleSubject, questionPaperUrl := "url9",
       questionPaperName := "m.pdf", status := "pending", reviewNotes := "",
       paymentStatus := "pending", paymentAmount := 0,
       reviewedBy := none, reviewedAt := none, updatedAt := 60 }
     (submitExaminationPaper c3State "T1" sampleBank sampleSubject
       "m.pdf" "url9" "SUB9" 60).2
     { id := "T1", profileId := some "P1", submissionToken := "tok3",
       tokenExpiresAt := 1000, hasSubmitted := true, addedBy := "AD1" }
     "P1" (by decide) (by decide) (by decide)⟩

/-! ## C6 -/

theorem findSubmissionById_id (ss : List SSubmission) (sid : String) (s : SSubmission)
    (h : findSubmissionById ss sid = some s) : s.id = sid := by
  induction ss with
  | nil => simp [findSubmissionById] at h
  | cons x xs ih =>
    by_cases hx : x.id = sid
    · rw [findSubmissionById, if_pos hx] at h
      cases h
      exact hx
    · rw [findSubmissionById, if_neg hx] at h
      exact ih h

/-- C6: approving a pending submission through `handleReview` with payment
amount 500 leaves the submission with status "approved", payment status
"processing" and payment amount 500, and creates a notification addressed to
the submitting teacher's profile whose message contains "500". -/
theorem approve_500_sets_processing_and_notifies
    (st : SState) (sid notes adminId : String) (now : Nat)
    (s : SSubmission) (t : STeacher) (pid : String)
    (hs : findSubmissionById st.submissions sid = some s)
    (_hpend : s.status = "pending")
    (ht : findTeacherById st.teachers s.teacherId = some t)
    (hpid : t.profileId = some pid) :
    (∃ s', findSubmissionById
        (handleReview st sid ReviewDecision.approved notes 500 adminId now).submissions sid
        = some s' ∧ s'.status = "approved" ∧ s'.paymentStatus = "processing" ∧
        s'.paymentAmount = 500) ∧
    (∃ n ∈ (handleReview st sid ReviewDecision.approved notes 500 adminId now).notifications,
      n.recipientId = pid ∧ ∃ a b, n.message = a ++ "500" ++ b) := by
  have hsid : s.id = sid := findSubmissionById_id st.submissions sid s hs
  constructor
  · have hfid : ∀ x : SSubmission,
        (reviewUpdate ReviewDecision.approved notes 500 adminId now x).id = x.id := by
      intro x
      simp [reviewUpdate]
    rw [handleReview_submissions_eq, findSubmissionById_update _ _ _ _ hfid, hs]
    refine ⟨reviewUpdate ReviewDecision.approved notes 500 adminId now s,
      by simp [hsid], ?_, ?_, ?_⟩ <;> simp [reviewUpdate, ReviewDecision.str]
  · simp [handleReview, hs, ht, hpid, createNotification, reviewUpdate]
    exact ⟨_, Or.inr rfl, rfl, "Your submission has been approved! Payment of ₹",
      " is being processed.", rfl⟩

/-- C6 witness: the theorem applied to the pending submission S1 of
`c6State`. -/
theorem approve_500_sets_processing_and_notifies_witness :
    (∃ s', findSubmissionById
        (handleReview c6State "S1" ReviewDecision.approved "good" 500 "AD1" 9).submissions "S1"
        = some s' ∧ s'.status = "approved" ∧ s'.paymentStatus = "processing" ∧
        s'.paymentAmount = 500) ∧
    (∃ n ∈ (handleReview c6State "S1" ReviewDecision.approved "good" 500 "AD1" 9).notifications,
      n.recipientId = "P1" ∧ ∃ a b, n.message = a ++ "500" ++ b) :=
  approve_500_sets_processing_and_notifies c6State "S1" "good" "AD1" 9
    { id := "S1", teacherId := "T1", bankDetails := sampleBank,
      subjectDetails := sampleSubject, questionPaperUrl := "u", questionPaperName := "p",
      status := "pending", reviewNotes := "", paymentStatus := "pending",
      paymentAmount := 0, reviewedBy := none, reviewedAt := none, updatedAt := 0 }
    { id := "T1", profileId := some "P1", submissionToken := "tok6",
      tokenExpiresAt := 1000, hasSubmitted := true, addedBy := "AD1" }
    "P1" (by decide) (by decide) (by decide) (by decide)

/-! ## C8 -/

theorem findProfileById_id (l : List Profile) (uid : String) (p : Profile)
    (h : findProfileById l uid = some p) : p.id = uid := by
  induction l with
  | nil => simp [findProfileById] at h
  | cons q qs ih =>
    by_cases hq : q.id = uid
    · rw [findProfileById, if_pos hq] at h
      cases h
      exact hq
    · rw [findProfileById, if_neg hq] at h
      exact ih h

theorem alookup_cacheDelete (l : List (String × (Profile × Nat))) (uid : String) :
    alookup (cacheDelete l uid) uid = none := by
  induction l with
  | nil => simp [cacheDelete, alookup]
  | cons e l ih =>
    by_cases he : e.1 = uid
    · simp [cacheDelete, he, ih]
    · simp [cacheDelete, alookup, he, ih]

theorem findProfileById_map_update (l : List Profile) (uid : String)
    (g : Profile → Profile) (hg : ∀ p, (g p).id = p.id) :
    findProfileById (l.map fun q => if q.id = uid then g q else q) uid
      = (findProfileById l uid).map g := by
  induction l with
  | nil => simp [findProfileById]
  | cons p ps ih =>
    simp only [List.map_cons]
    by_cases hp : p.id = uid
    · simp [findProfileById, hp, hg p]
    · simp [findProfileById, hp, ih]

/-- C8 (amended): after `updateProfile` with an update set that does not touch
`updated_at`, re-fetching through `getProfileFast` returns the freshly written
row — never the stale cached copy — and every supplied field value is
reflected exactly.  (`updated_at` itself is always stamped with the update
time because the code spreads `{...updates, updated_at: now}`; see the
counterexample for an update set that supplies `updated_at`.) -/
theorem profile_update_then_fetch
    (st : AuthState) (uid : String) (u : ProfileUpdates) (now nowf : Nat)
    (p : Profile)
    (hfind : findProfileById st.profiles uid = some p)
    (hup : u.updatedAt = none) :
    ((getProfileFast (updateProfile st uid u now).2 uid nowf).1
        = some (applyProfileUpdates p u now)) ∧
    (∀ v, u.email = some v → (applyProfileUpdates p u now).email = v) ∧
    (∀ v, u.fullName = some v → (applyProfileUpdates p u now).fullName = v) ∧
    (∀ v, u.phone = some v → (applyProfileUpdates p u now).phone = v) ∧
    (∀ v, u.avatarUrl = some v → (applyProfileUpdates p u now).avatarUrl = v) ∧
    (∀ v, u.updatedAt = some v → (applyProfileUpdates p u now).updatedAt = v) := by
  refine ⟨?_, ?_, ?_, ?_, ?_, ?_⟩
  · have hdel := alookup_cacheDelete st.profileCache uid
    have hmap := findProfileById_map_update st.profiles uid
      (fun q => applyProfileUpdates q u now) (fun q => rfl)
    simp [getProfileFast, updateProfile, hfind, hdel, fetchProfile, hmap]
  · intro v hv
    simp [applyProfileUpdates, hv]
  · intro v hv
    simp [applyProfileUpdates, hv]
  · intro v hv
    simp [applyProfileUpdates, hv]
  · intro v hv
    simp [applyProfileUpdates, hv]
  · intro v hv
    rw [hv] at hup
    cases hup

/-- C8 counterexample: the update set `c8Updates` supplies only
`updated_at = 5`; updating at time 7 and re-fetching yields `updated_at = 7`,
not the supplied 5 — the spread `{...updates, updated_at: now}` overwrites the
supplied value, so "the updated fields equal exactly the supplied values" is
false as stated. -/
theorem profile_update_updated_at_counterexample :
    (c8Updates.updatedAt = some 5) ∧
    (((getProfileFast (updateProfile c8State "U1" c8Updates 7).2 "U1" 8).1).map
        Profile.updatedAt = some 7) ∧
    (some (7 : Nat) ≠ some 5) := by
  decide

/-- C8 witness: renaming the profile via `c8wUpdates` and re-fetching returns
the renamed row. -/
theorem profile_update_then_fetch_witness :
    (getProfileFast (updateProfile c8State "U1" c8wUpdates 7).2 "U1" 8).1
      = some (applyProfileUpdates
          { id := "U1", email := "e@x.com", fullName := "Old Name", role := "admin",
            phone := none, avatarUrl := none, updatedAt := 0 }
          c8wUpdates 7) :=
  (profile_update_then_fetch c8State "U1" c8wUpdates 7 8
    { id := "U1", email := "e@x.com", fullName := "Old Name", role := "admin",
      phone := none, avatarUrl := none, updatedAt := 0 }
    (by decide) (by decide)).1

/-! ## C9 -/

theorem mapRead_of_find_none (ns : List MNotification) (nid : String)
    (h : findMNotificationById ns nid = none) :
    (ns.map fun n => if n.id = nid then { n with isRead := true } else n) = ns := by
  induction ns with
  | nil => simp
  | cons n ns ih =>
    by_cases hn : n.id = nid
    · rw [findMNotificationById, if_pos hn] at h
      cases h
    · rw [findMNotificationById, if_neg hn] at h
      simp [hn, ih h]

/-- C9: the only mutation any modelled operation applies to an existing
notification row is the read-flag flip.  `markAsRead` maps exactly the
targeted row to its copy with `isRead := true` (touching neither the teachers
nor the submissions tables), that copy agrees with the original on every other
field, and every other notification-touching operation (add-teacher, submit,
review, payment) only appends new rows after the existing ones. -/
theorem notification_mutation_frame :
    (∀ (st : MState) (nid : String),
       (markAsRead st nid).2.notifications
         = st.notifications.map (fun n => if n.id = nid then { n with isRead := true } else n) ∧
       (markAsRead st nid).2.teachers = st.teachers ∧
       (markAsRead st nid).2.submissions = st.submissions) ∧
    (∀ n : MNotification,
       ({ n with isRead := true } : MNotification).id = n.id ∧
       ({ n with isRead := true } : MNotification).recipient = n.recipient ∧
       ({ n with isRead := true } : MNotification).recipientModel = n.recipientModel ∧
       ({ n with isRead := true } : MNotification).title = n.title ∧
       ({ n with isRead := true } : MNotification).message = n.message ∧
       ({ n with isRead := true } : MNotification).ntype = n.ntype ∧
       ({ n with isRead := true } : MNotification).relatedId = n.relatedId ∧
       ({ n with isRead := true } : MNotification).relatedType = n.relatedType ∧
       ({ n with isRead := true } : MNotification).isRead = true) ∧
    (∀ (st : MState) (name email phone submissionToken adminId teacherId notifId : String)
        (now : Nat), ∃ new,
       (addTeacher st name email phone submissionToken adminId teacherId notifId now).2.notifications
         = st.notifications ++ new) ∧
    (∀ (st : MState) (token : String) (bankDetails : SBankDetails)
        (subjectDetails : SSubjectDetails) (file : Option MFile)
        (subId notifId1 notifId2 : String) (now : Nat), ∃ new,
       (submitHandler st token bankDetails subjectDetails file subId notifId1 notifId2 now).2.notifications
         = st.notifications ++ new) ∧
    (∀ (st : MState) (sid status reviewNotes : String) (paymentAmount : Nat)
        (adminId notifId : String) (now : Nat), ∃ new,
       (reviewSubmission st sid status reviewNotes paymentAmount adminId notifId now).2.notifications
         = st.notifications ++ new) ∧
    (∀ (st : MState) (sid status notifId : String), ∃ new,
       (processPayment st sid status notifId).2.notifications
         = st.notifications ++ new) := by
  refine ⟨?_, ?_, ?_, ?_, ?_, ?_⟩
  · intro st nid
    cases hfind : findMNotificationById st.notifications nid with
    | none =>
      refine ⟨?_, ?_, ?_⟩ <;>
        simp [markAsRead, hfind, mapRead_of_find_none st.notifications nid hfind]
    | some x =>
      refine ⟨?_, ?_, ?_⟩ <;> simp [markAsRead, hfind]
  · intro n
    exact ⟨rfl, rfl, rfl, rfl, rfl, rfl, rfl, rfl, rfl⟩
  · intro st name email phone submissionToken adminId teacherId notifId now
    cases hfe : findMTeacherByEmail st.teachers email with
    | some t => exact ⟨[], by simp [addTeacher, hfe]⟩
    | none =>
      refine ⟨[{ id := notifId, recipient := adminId, recipientModel := "Admin",
                 title := "Teacher Added",
                 message := "Teacher " ++ name ++ " has been added successfully",
                 ntype := "success", isRead := false,
                 relatedId := some teacherId, relatedType := some "teacher" }], ?_⟩
      simp [addTeacher, hfe]
  · intro st token bankDetails subjectDetails file subId notifId1 notifId2 now
    cases hf : findMTeacherByToken st.teachers token with
    | none => exact ⟨[], by simp [submitHandler, hf]⟩
    | some t =>
      by_cases hexp : t.tokenExpiry < now
      · exact ⟨[], by simp [submitHandler, hf, hexp]⟩
      · by_cases hsub : t.hasSubmitted
        · exact ⟨[], by simp [submitHandler, hf, hexp, hsub]⟩
        · cases file with
          | none => exact ⟨[], by simp [submitHandler, hf, hexp, hsub]⟩
          | some f =>
            refine ⟨[{ id := notifId1, recipient := t.addedBy, recipientModel := "Admin",
                       title := "New Submission Received",
                       message := t.name ++ " has submitted their examination paper",
                       ntype := "info", isRead := false,
                       relatedId := some subId, relatedType := some "submission" },
                     { id := notifId2, recipient := t.id, recipientModel := "Teacher",
                       title := "Submission Successful",
                       message := "Your examination paper has been submitted successfully and is under review",
                       ntype := "success", isRead := false,
                       relatedId := some subId, relatedType := some "submission" }], ?_⟩
            simp [submitHandler, hf, hexp, hsub]
  · intro st sid status reviewNotes paymentAmount adminId notifId now
    cases hfs : findMSubmissionById st.submissions sid with
    | none => exact ⟨[], by simp [reviewSubmission, hfs]⟩
    | some sub =>
      by_cases henum : (submissionStatusEnum.contains status) = false
      · have hmem : status ∉ submissionStatusEnum := by simpa using henum
        exact ⟨[], by simp [reviewSubmission, hfs, henum, hmem]⟩
      · have hmem : status ∈ submissionStatusEnum := by simpa using henum
        refine ⟨[{ id := notifId, recipient := sub.teacher, recipientModel := "Teacher",
                   title := "Submission " ++ String.capitalize status,
                   message :=
                     if status = "accepted" then
                       "Your submission has been accepted! Payment of ₹" ++
                         toString paymentAmount ++ " is being processed."
                     else
                       "Your submission has been " ++ status ++ ". " ++ reviewNotes,
                   ntype :=
                     if status = "accepted" then "success"
                     else if status = "declined" then "error"
                     else "info",
                   isRead := false,
                   relatedId := some sid, relatedType := some "submission" }], ?_⟩
        simp [reviewSubmission, hfs, henum, hmem]
  · intro st sid status notifId
    cases hfs : findMSubmissionById st.submissions sid with
    | none => exact ⟨[], by simp [processPayment, hfs]⟩
    | some sub =>
      by_cases henum : (paymentStatusEnum.contains status) = false
      · have hmem : status ∉ paymentStatusEnum := by simpa using henum
        exact ⟨[], by simp [processPayment, hfs, henum, hmem]⟩
      · have hmem : status ∈ paymentStatusEnum := by simpa using henum
        refine ⟨[{ id := notifId, recipient := sub.teacher, recipientModel := "Teacher",
                   title := "Payment Update",
                   message :=
                     if status = "completed" then
                       "Payment of ₹" ++ toString sub.paymentAmount ++ " has been completed!"
                     else
                       "Payment status updated to " ++ status,
                   ntype := if status = "completed" then "success" else "info",
                   isRead := false,
                   relatedId := some sid, relatedType := some "payment" }], ?_⟩
        simp [processPayment, hfs, henum, hmem]

end ExamPortal
